import Mathlib

/-!
Verification of the data reconciliation and caching engine of the
sahkon-kulutus repository (TypeScript).  Numbers are modelled as exact
rationals; `Number(x.toFixed(f))` is modelled as rounding the exact value
to `f` decimal places with ties toward positive infinity, which is the
ECMAScript `toFixed` rule applied to the exact value.  Timestamp strings
are parsed and rendered by an explicit model of the ISO-8601 subset the
program feeds to `new Date` / `Date.prototype.toISOString`.
-/

namespace SahkonKulutus

/-- Model of `Number(x.toFixed(f))` on exact rationals: round to `f`
decimal places, ties toward +infinity (the ECMAScript rule picks the
larger candidate integer). -/
def toFixed (f : Nat) (q : ℚ) : ℚ :=
  ((Int.floor (q * 10 ^ f + 1 / 2) : ℤ) : ℚ) / 10 ^ f

/-! Calendar arithmetic (proleptic Gregorian), the standard civil-from-days
and days-from-civil algorithms used by JavaScript date semantics. -/

/-- Days from civil date to days since the Unix epoch (1970-01-01). -/
def daysFromCivil (y m d : Int) : Int :=
  let y' := if m ≤ 2 then y - 1 else y
  let era := Int.fdiv y' 400
  let yoe := y' - era * 400
  let mp := Int.fmod (m + 9) 12
  let doy := Int.fdiv (153 * mp + 2) 5 + d - 1
  let doe := yoe * 365 + Int.fdiv yoe 4 - Int.fdiv yoe 100 + doy
  era * 146097 + doe - 719468

/-- Civil date (year, month, day) from days since the Unix epoch. -/
def civilFromDays (z : Int) : Int × Int × Int :=
  let z' := z + 719468
  let era := Int.fdiv z' 146097
  let doe := z' - era * 146097
  let yoe := Int.fdiv (doe - Int.fdiv doe 1460 + Int.fdiv doe 36524 - Int.fdiv doe 146096) 365
  let y := yoe + era * 400
  let doy := doe - (365 * yoe + Int.fdiv yoe 4 - Int.fdiv yoe 100)
  let mp := Int.fdiv (5 * doy + 2) 153
  let d := doy - Int.fdiv (153 * mp + 2) 5 + 1
  let m := mp + (if mp < 10 then 3 else -9)
  (if m ≤ 2 then y + 1 else y, m, d)

/-- Whether a year is a leap year. -/
def isLeapYear (y : Int) : Bool :=
  (Int.emod y 4 == 0 && Int.emod y 100 != 0) || Int.emod y 400 == 0

/-- Number of days in a month. -/
def daysInMonth (y m : Int) : Int :=
  if m = 2 then (if isLeapYear y then 29 else 28)
  else if m = 4 ∨ m = 6 ∨ m = 9 ∨ m = 11 then 30
  else 31

/-! A character-level parser for the ISO-8601 timestamp forms the program
actually passes to `new Date`:
`YYYY-MM-DDTHH:MM:SS` followed by `Z`, `.mmmZ`, or a `±HH:MM` offset. -/

/-- Numeric value of a decimal digit character, if it is one. -/
def digitVal (c : Char) : Option Nat :=
  if c.isDigit then some (c.toNat - 48) else none

/-- Consume exactly `n` decimal digits, returning their value. -/
def takeDigits : Nat → List Char → Option (Nat × List Char)
  | 0, cs => some (0, cs)
  | n + 1, [] => (fun _ => none) n
  | n + 1, c :: cs => do
    let d ← digitVal c
    let (rest, cs') ← takeDigits n cs
    pure (d * 10 ^ n + rest, cs')

/-- Consume one expected character. -/
def expectChar (c : Char) : List Char → Option (List Char)
  | [] => none
  | c' :: cs => if c' = c then some cs else none

/-- Parse the suffix after `YYYY-MM-DDTHH:MM:SS`: returns
`(milliseconds, offsetSeconds)`.  Accepts `Z`, `.mmmZ`, `+HH:MM`, `-HH:MM`. -/
def parseSuffix : List Char → Option (Int × Int)
  | ['Z'] => some (0, 0)
  | '.' :: cs => do
    let (ms, cs₁) ← takeDigits 3 cs
    let cs₂ ← expectChar 'Z' cs₁
    if cs₂ = [] then pure ((ms : Int), 0) else none
  | '+' :: cs => do
    let (oh, cs₁) ← takeDigits 2 cs
    let cs₂ ← expectChar ':' cs₁
    let (om, cs₃) ← takeDigits 2 cs₂
    if cs₃ = [] ∧ om < 60 then pure (0, (oh : Int) * 3600 + (om : Int) * 60) else none
  | '-' :: cs => do
    let (oh, cs₁) ← takeDigits 2 cs
    let cs₂ ← expectChar ':' cs₁
    let (om, cs₃) ← takeDigits 2 cs₂
    if cs₃ = [] ∧ om < 60 then pure (0, -((oh : Int) * 3600 + (om : Int) * 60)) else none
  | _ => none

/-- Validity of the parsed date and time components. -/
def validYmdHms (y mo d h mi sec : Nat) : Bool :=
  1 ≤ mo && mo ≤ 12 && 1 ≤ d && (d : Int) ≤ daysInMonth (y : Int) (mo : Int) &&
    h ≤ 23 && mi ≤ 59 && sec ≤ 59

/-- Epoch milliseconds of parsed components (`off` is the offset in
seconds, `ms` the millisecond part). -/
def epochOfParts (y mo d h mi sec : Nat) (ms off : Int) : Int :=
  (daysFromCivil (y : Int) (mo : Int) (d : Int) * 86400 + (h : Int) * 3600 + (mi : Int) * 60
    + (sec : Int) - off) * 1000 + ms

/-- Parse a timestamp string to milliseconds since the Unix epoch (UTC),
modelling `new Date(s).getTime()` on the ISO forms used by the program;
`none` models an invalid date (`NaN`). -/
def parseEpochMs (s : String) : Option Int := do
  let cs := s.toList
  let (y, cs₁) ← takeDigits 4 cs
  let cs₂ ← expectChar '-' cs₁
  let (mo, cs₃) ← takeDigits 2 cs₂
  let cs₄ ← expectChar '-' cs₃
  let (d, cs₅) ← takeDigits 2 cs₄
  let cs₆ ← expectChar 'T' cs₅
  let (h, cs₇) ← takeDigits 2 cs₆
  let cs₈ ← expectChar ':' cs₇
  let (mi, cs₉) ← takeDigits 2 cs₈
  let cs₁₀ ← expectChar ':' cs₉
  let (sec, cs₁₁) ← takeDigits 2 cs₁₀
  let (ms, off) ← parseSuffix cs₁₁
  if validYmdHms y mo d h mi sec then pure (epochOfParts y mo d h mi sec ms off) else none

/-- Left-pad the decimal rendering of a natural number with zeros. -/
def padNat (width n : Nat) : String :=
  let s := toString n
  String.mk (List.replicate (width - s.length) '0') ++ s

/-- Model of `Date.prototype.toISOString` for an epoch-millisecond
instant: `YYYY-MM-DDTHH:MM:SS.mmmZ`. -/
def isoString (msEpoch : Int) : String :=
  let day := Int.fdiv msEpoch 86400000
  let rem := (Int.fmod msEpoch 86400000).toNat
  let ymd := civilFromDays day
  let y := ymd.1
  let mo := ymd.2.1
  let d := ymd.2.2
  let h := rem / 3600000
  let mi := rem / 60000 % 60
  let sec := rem / 1000 % 60
  let ms := rem % 1000
  padNat 4 y.toNat ++ "-" ++ padNat 2 mo.toNat ++ "-" ++ padNat 2 d.toNat ++ "T" ++
    padNat 2 h ++ ":" ++ padNat 2 mi ++ ":" ++ padNat 2 sec ++ "." ++ padNat 3 ms ++ "Z"

/-- Month grouping key: `toLocaleDateString('en-CA', {year, month, timeZone:'UTC'})`
of an instant, i.e. `YYYY-MM` of the UTC calendar date. -/
def monthKeyOfMs (msEpoch : Int) : String :=
  let day := Int.fdiv msEpoch 86400000
  let ymd := civilFromDays day
  padNat 4 ymd.1.toNat ++ "-" ++ padNat 2 ymd.2.1.toNat

/-- Month key computed by re-parsing a stored timestamp string, as the
source does with `new Date(normalizedTimestampForLookup)`. -/
def monthKeyFromTs (ts : String) : String :=
  match parseEpochMs ts with
  | some m => monthKeyOfMs m
  | none => "Invalid Date"

/-! Data model of the TypeScript interfaces. -/

/-- One hourly meter reading (`{t, v}` in `MeterReadingResponse`):
timestamp string and watt-hours. -/
structure Reading where
  t : String
  v : ℚ
  deriving DecidableEq, Repr

/-- One month group of `MeterReadingResponse.months`: the two reading
variants are optional arrays, `none` modelling an absent (`undefined`)
field. -/
structure MonthData where
  month : Option String
  hourly_values_netted : Option (List Reading)
  hourly_values : Option (List Reading)
  deriving DecidableEq, Repr

/-- A consumption response from the Elenia service. -/
structure MeterReadingResponse where
  months : List MonthData
  deriving DecidableEq, Repr

/-- A raw price row of the Vattenfall API (`PriceData`). -/
structure PriceData where
  timeStamp : String
  value : ℚ
  deriving DecidableEq, Repr

/-- A reconciled hourly ledger entry (`CombinedData`). -/
structure CombinedData where
  timestamp : String
  consumption_kWh : ℚ
  price_cents_per_kWh : ℚ
  cost_euros : ℚ
  deriving DecidableEq, Repr

/-- A monthly summary (`MonthlyData`). -/
structure MonthlyData where
  month : String
  totalConsumption : ℚ
  averagePrice : ℚ
  totalCost : ℚ
  deriving DecidableEq, Repr

/-- A cached yearly dataset (`YearData`); `lastUpdated` is produced from
the wall clock, modelled here as an opaque string. -/
structure YearData where
  lastUpdated : String
  hourly : List CombinedData
  monthly : List MonthlyData
  deriving DecidableEq, Repr

/-! Resilient fetch client (`EleniaService.makeRequestWithRetry`). -/

/-- Outcome of one attempted HTTP request: a resolved response with a
status code, or a rejection (network failure, or an error status that the
HTTP library surfaces as a thrown error). -/
inductive Outcome (ε : Type) where
  | resolved (status : Nat)
  | rejected (e : ε)
  deriving DecidableEq, Repr

/-- Observable result of a `makeRequestWithRetry` run: how many attempts
were performed, the backoff waits (in seconds, in order), and the final
result (a resolved status or the last thrown error). -/
structure RunResult (ε : Type) where
  attempts : Nat
  waits : List Nat
  result : Except ε Nat
  deriving Repr

/-- Model of `makeRequestWithRetry`: `o i` is the outcome of the i-th
attempt (0-based).  A resolved 504 with budget left retries after waiting
`2 ^ attempt` seconds; any rejected attempt with budget left retries the
same way; otherwise the response status or the last error is returned. -/
def makeRequestWithRetry {ε : Type} (maxRetries : Nat) (o : Nat → Outcome ε)
    (attempt : Nat) : RunResult ε :=
  match o attempt with
  | .resolved s =>
    if h : s = 504 ∧ attempt < maxRetries - 1 then
      let r := makeRequestWithRetry maxRetries o (attempt + 1)
      ⟨r.attempts + 1, 2 ^ attempt :: r.waits, r.result⟩
    else ⟨1, [], .ok s⟩
  | .rejected e =>
    if h : attempt < maxRetries - 1 then
      let r := makeRequestWithRetry maxRetries o (attempt + 1)
      ⟨r.attempts + 1, 2 ^ attempt :: r.waits, r.result⟩
    else ⟨1, [], .error e⟩
termination_by maxRetries - 1 - attempt
decreasing_by
  · omega
  · omega

/-- Default retry budget of `EleniaService` (`this.maxRetries = 5`). -/
def eleniaMaxRetries : Nat := 5

/-! Vattenfall price service (`vattenfallService.fetchPriceData`). -/

/-- Fixed VAT markup of the yearly price fetch (`VAT_RATE = 0.255`). -/
def VAT_RATE : ℚ := 255 / 1000

/-- Computable model of `String.endsWith` (the library version is not
kernel-reducible). -/
def strEndsWith (s suf : String) : Bool :=
  List.isSuffixOf suf.toList s.toList

/-- Model of `.replace(/\.000Z$/, 'Z')`. -/
def stripMs000Z (s : String) : String :=
  if strEndsWith s ".000Z" then
    String.mk (s.toList.dropLast.dropLast.dropLast.dropLast.dropLast) ++ "Z"
  else s

/-- Processing of one raw price row: normalize the timestamp through
`new Date(...).toISOString().replace(/\.000Z$/,'Z')` and apply the VAT
markup rounded to 2 decimals.  `none` models the `RangeError` thrown by
`toISOString` on an invalid date, which rejects the whole fetch. -/
def processPriceRow (row : PriceData) : Option PriceData :=
  (parseEpochMs row.timeStamp).map fun m =>
    ⟨stripMs000Z (isoString m), toFixed 2 (row.value * (1 + VAT_RATE))⟩

/-- Pure core of `fetchPriceData`: the `data.map(row => ...)` step; any
row whose normalization throws rejects the whole fetch. -/
def fetchPriceData : List PriceData → Option (List PriceData)
  | [] => some []
  | row :: rest =>
    match processPriceRow row, fetchPriceData rest with
    | some r, some rs => some (r :: rs)
    | _, _ => none

/-! Spot price service (`spotPriceService.getCurrentSpotPrice`). -/

/-- Fixed VAT markup of the current-instant price (`VAT_RATE = 0.24`). -/
def SPOT_VAT_RATE : ℚ := 24 / 100

/-- Pure core of `getCurrentSpotPrice`: the VAT application
`Number((value * (1 + VAT_RATE)).toFixed(2))` to the current hour's raw
upstream value. -/
def getCurrentSpotPrice (rawValue : ℚ) : ℚ :=
  toFixed 2 (rawValue * (1 + SPOT_VAT_RATE))

/-! Elenia consumption service, month normalization inside
`getMeterReadings` (`response.data.months.map(...)`). -/

/-- Timestamp conversion applied to one reading
(`{...reading, t: convertTimestamp(reading.t)}`); the Helsinki-localized
rendering itself is abstracted as `conv`. -/
def convertReading (conv : String → String) (r : Reading) : Reading :=
  ⟨conv r.t, r.v⟩

/-- Month normalization of `getMeterReadings`: keep the netted variant
(timestamps converted) and clear the gross one when the netted variant is
non-empty, else keep the gross variant and clear the netted one when the
gross variant is non-empty, else leave the month unchanged. -/
def normalizeMonth (conv : String → String) (m : MonthData) : MonthData :=
  match m.hourly_values_netted with
  | some netted =>
    if netted.length > 0 then
      ⟨m.month, some (netted.map (convertReading conv)), none⟩
    else
      match m.hourly_values with
      | some hv =>
        if hv.length > 0 then ⟨m.month, none, some (hv.map (convertReading conv))⟩ else m
      | none => m
  | none =>
    match m.hourly_values with
    | some hv =>
      if hv.length > 0 then ⟨m.month, none, some (hv.map (convertReading conv))⟩ else m
    | none => m

/-! Data processor (`dataProcessor.combineData`), the reconciliation
engine: price-map construction, the join loop, monthly aggregation,
finalization, and sorting. -/

/-- Association-list lookup (model of `Map.prototype.get`). -/
def assocGet {α : Type} (k : String) : List (String × α) → Option α
  | [] => none
  | (k', v) :: rest => if k' = k then some v else assocGet k rest

/-- Association-list insertion with JavaScript `Map` semantics: an
existing key keeps its position and is overwritten, a new key is appended. -/
def assocSet {α : Type} (k : String) (v : α) : List (String × α) → List (String × α)
  | [] => [(k, v)]
  | (k', v') :: rest => if k' = k then (k', v) :: rest else (k', v') :: assocSet k v rest

/-- Appending the trailing `Z` for price timestamps
(`p.timeStamp.endsWith('Z') ? p.timeStamp : p.timeStamp + 'Z'`). -/
def withZ (s : String) : String :=
  if strEndsWith s "Z" then s else s ++ "Z"

/-- Normalization of one price timestamp inside `combineData`: parse as
UTC and render with `toISOString`; `none` models the skipped invalid
entry. -/
def normalizePriceTs (s : String) : Option String :=
  (parseEpochMs (withZ s)).map isoString

/-- Normalization of one consumption timestamp inside `combineData`
(`new Date(timestamp).toISOString()` on the offset-annotated string). -/
def normalizeEleniaTs (s : String) : Option String :=
  (parseEpochMs s).map isoString

/-- The price `Map` built in `combineData`: normalize every entry's
timestamp, skip invalid ones, last entry wins on duplicate keys. -/
def buildPriceMap (pricesArray : List PriceData) : List (String × ℚ) :=
  (pricesArray.filterMap fun p => (normalizePriceTs p.timeStamp).map fun ts => (ts, p.value)).foldl
    (fun acc e => assocSet e.1 e.2 acc) []

/-- State of the join loop: the hourly ledger accumulated so far and the
monthly map (key, accumulating `MonthlyData`). -/
structure ProcState where
  combined : List CombinedData
  monthlyMap : List (String × MonthlyData)
  deriving Repr

/-- Accumulation into the monthly map: create the month's entry on first
use, then add the record's consumption and cost. -/
def bumpMonth (key : String) (c cost : ℚ) : List (String × MonthlyData) → List (String × MonthlyData)
  | [] => [(key, ⟨key, c, 0, cost⟩)]
  | (k, d) :: rest =>
    if k = key then (k, ⟨d.month, d.totalConsumption + c, d.averagePrice, d.totalCost + cost⟩) :: rest
    else (k, d) :: bumpMonth key c cost rest

/-- Processing of one reading inside the join loop: skip an empty
timestamp, an unparseable timestamp, or a price-lookup miss; otherwise
emit a `CombinedData` record and accumulate it into its month. -/
def processReading (prices : List (String × ℚ)) (st : ProcState) (r : Reading) : ProcState :=
  if r.t = "" then st
  else
    match parseEpochMs r.t with
    | none => st
    | some m =>
      let key := isoString m
      match assocGet key prices with
      | none => st
      | some price =>
        let consumption := r.v / 1000
        let entry : CombinedData :=
          ⟨key, toFixed 3 consumption, toFixed 2 price, toFixed 6 (consumption * price / 100)⟩
        let mk := monthKeyFromTs key
        ⟨st.combined ++ [entry],
          bumpMonth mk entry.consumption_kWh entry.cost_euros st.monthlyMap⟩

/-- Variant selection of the join loop: the netted readings strictly
supersede the gross ones when non-empty
(`hasNettedValues ? hourly_values_netted : hourly_values`), and an empty
or absent selection skips the month. -/
def selectReadings (m : MonthData) : Option (List Reading) :=
  let hasNetted : Bool := match m.hourly_values_netted with
    | some l => !l.isEmpty
    | none => false
  let readings := if hasNetted then m.hourly_values_netted else m.hourly_values
  match readings with
  | none => none
  | some [] => none
  | some (r :: rs) => some (r :: rs)

/-- Processing of one month group. -/
def processMonth (prices : List (String × ℚ)) (st : ProcState) (m : MonthData) : ProcState :=
  match selectReadings m with
  | none => st
  | some rs => rs.foldl (processReading prices) st

/-- Processing of one consumption response. -/
def processResponse (prices : List (String × ℚ)) (st : ProcState)
    (resp : MeterReadingResponse) : ProcState :=
  resp.months.foldl (processMonth prices) st

/-- Monthly finalization: zero-guarded average price, then rounding of
the totals (`toFixed(3)` for consumption, `toFixed(2)` for average price
and total cost). -/
def finalizeMonth (d : MonthlyData) : MonthlyData :=
  let avgPrice := if d.totalConsumption ≠ 0 then d.totalCost / d.totalConsumption * 100 else 0
  ⟨d.month, toFixed 3 d.totalConsumption, toFixed 2 avgPrice, toFixed 2 d.totalCost⟩

/-- Sort key of the hourly comparator
(`new Date(a.timestamp).getTime()`). -/
def tsKeyOf (e : CombinedData) : Int :=
  (parseEpochMs e.timestamp).getD 0

/-- Hourly comparator of `combinedData.sort`. -/
def hourlyLE (a b : CombinedData) : Prop := tsKeyOf a ≤ tsKeyOf b

instance : DecidableRel hourlyLE := fun a b => inferInstanceAs (Decidable (tsKeyOf a ≤ tsKeyOf b))

instance : IsTotal CombinedData hourlyLE := ⟨fun a b => le_total (tsKeyOf a) (tsKeyOf b)⟩

instance : IsTrans CombinedData hourlyLE := ⟨fun _ _ _ h h' => le_trans h h'⟩

/-- Monthly comparator of `.sort((a, b) => a.month.localeCompare(b.month))`. -/
def monthlyLE (a b : MonthlyData) : Prop := a.month ≤ b.month

instance : DecidableRel monthlyLE := fun a b => inferInstanceAs (Decidable (a.month ≤ b.month))

instance : IsTotal MonthlyData monthlyLE := ⟨fun a b => le_total a.month b.month⟩

instance : IsTrans MonthlyData monthlyLE := ⟨fun _ _ _ h h' => le_trans h h'⟩

/-- Pure core of `combineData`: build the price map, run the join loop
over all responses, finalize and sort the monthly summaries, and sort the
hourly ledger.  `lastUpdated` comes from the wall clock and is modelled
as the empty string. -/
def combineDataPure (responses : List MeterReadingResponse) (pricesArray : List PriceData) :
    YearData :=
  let prices := buildPriceMap pricesArray
  let st := responses.foldl (processResponse prices) ⟨[], []⟩
  let monthlyData := List.insertionSort monthlyLE ((st.monthlyMap.map (·.2)).map finalizeMonth)
  let hourly := List.insertionSort hourlyLE st.combined
  ⟨"", hourly, monthlyData⟩

/-- Control flow of `combineData` around the pure core: a valid fresh
cache is returned directly; otherwise on a fetch failure a cached dataset
(stale or not) is returned when present and the error propagates when
not.  The staleness test (`shouldUpdateData`, wall-clock dependent) is
abstracted as `needsUpdate`. -/
def combineDataFlow (cached : Option YearData) (needsUpdate : YearData → Bool)
    (fetched : Except String (List MeterReadingResponse × List PriceData)) :
    Except String YearData :=
  match cached with
  | some c =>
    if needsUpdate c = false then .ok c
    else
      match fetched with
      | .ok (rs, ps) => .ok (combineDataPure rs ps)
      | .error _ => .ok c
  | none =>
    match fetched with
    | .ok (rs, ps) => .ok (combineDataPure rs ps)
    | .error e => .error e

/-! Derived notions used to state the properties. -/

/-- The member hourly records of a month key: the records whose
re-parsed timestamp falls in that UTC month. -/
def monthMembers (k : String) (es : List CombinedData) : List CombinedData :=
  es.filter fun e => monthKeyFromTs e.timestamp == k

/-- Total consumption of a list of hourly records. -/
def sumCons (es : List CombinedData) : ℚ :=
  (es.map (·.consumption_kWh)).sum

/-- Total cost of a list of hourly records. -/
def sumCost (es : List CombinedData) : ℚ :=
  (es.map (·.cost_euros)).sum

/-- The monthly map rebuilt from a list of emitted records, in emission
order; the join loop's map state always has this shape. -/
def monthMapOf (es : List CombinedData) : List (String × MonthlyData) :=
  es.foldl (fun acc e => bumpMonth (monthKeyFromTs e.timestamp) e.consumption_kWh e.cost_euros acc) []

/-- Shape of every emitted hourly record: its three numeric fields are
the rounded images of a raw watt-hour value and a raw price. -/
def EntryShape (e : CombinedData) : Prop :=
  ∃ v p : ℚ, e.consumption_kWh = toFixed 3 (v / 1000) ∧
    e.price_cents_per_kWh = toFixed 2 p ∧
    e.cost_euros = toFixed 6 (v / 1000 * p / 100)

/-- Invariant of the join loop state. -/
def GoodState (st : ProcState) : Prop :=
  st.monthlyMap = monthMapOf st.combined ∧ ∀ e ∈ st.combined, EntryShape e

/-! Concrete fixtures used by the scenario theorems. -/

/-- One reading of 1500 Wh at 02:00 Helsinki time on 2024-01-01. -/
def responsesA : List MeterReadingResponse :=
  [⟨[⟨some "1", none, some [⟨"2024-01-01T02:00:00+02:00", 1500⟩]⟩]⟩]

/-- One already-marked-up price of 6.28 c/kWh for the same hour (UTC). -/
def pricesA : List PriceData := [⟨"2024-01-01T00:00:00Z", 628 / 100⟩]

/-- The hourly record reconciliation emits for `responsesA`/`pricesA`. -/
def entryA : CombinedData := ⟨"2024-01-01T00:00:00.000Z", 3 / 2, 157 / 25, 471 / 5000⟩

/-- The monthly summary reconciliation emits for `responsesA`/`pricesA`. -/
def summaryA : MonthlyData := ⟨"2024-01", 3 / 2, 157 / 25, 9 / 100⟩

/-- One reading with a fractional watt-hour value (1000.4 Wh). -/
def responsesB : List MeterReadingResponse :=
  [⟨[⟨some "1", none, some [⟨"2024-01-01T02:00:00+02:00", 10004 / 10⟩]⟩]⟩]

/-- A price of 10 c/kWh for the same hour. -/
def pricesB : List PriceData := [⟨"2024-01-01T00:00:00Z", 10⟩]

/-- The hourly record reconciliation emits for `responsesB`/`pricesB`. -/
def entryB : CombinedData := ⟨"2024-01-01T00:00:00.000Z", 1, 10, 2501 / 25000⟩

/-- The same hour reported twice in one month group. -/
def responsesC : List MeterReadingResponse :=
  [⟨[⟨some "1", none, some [⟨"2024-01-01T02:00:00+02:00", 1000⟩,
    ⟨"2024-01-01T02:00:00+02:00", 1000⟩]⟩]⟩]

/-- The duplicated hourly record emitted for `responsesC`/`pricesB`. -/
def entryC : CombinedData := ⟨"2024-01-01T00:00:00.000Z", 1, 10, 1 / 10⟩

/-- The monthly summary emitted for `responsesC`/`pricesB`. -/
def summaryC : MonthlyData := ⟨"2024-01", 2, 10, 1 / 5⟩

end SahkonKulutus

namespace SahkonKulutus

/-! Helper lemmas about rounding. -/

theorem toFixed_int_mul (f : Nat) (q : ℚ) : ∃ n : ℤ, toFixed f q * 10 ^ f = (n : ℚ) := by
  refine ⟨Int.floor (q * 10 ^ f + 1 / 2), ?_⟩
  have h10 : ((10 : ℚ) ^ f) ≠ 0 := by positivity
  field_simp [toFixed]

theorem toFixed_eq_self {f : Nat} {q : ℚ} (h : ∃ n : ℤ, q * 10 ^ f = (n : ℚ)) :
    toFixed f q = q := by
  obtain ⟨n, hn⟩ := h
  have h10 : ((10 : ℚ) ^ f) ≠ 0 := by positivity
  have hq : q = (n : ℚ) / 10 ^ f := by field_simp [← hn]
  have hfloor : Int.floor ((n : ℚ) + 1 / 2) = n := by
    rw [Int.floor_eq_iff]
    constructor
    · norm_num
    · norm_num
  rw [toFixed, hq]
  rw [div_mul_cancel₀ _ h10, hfloor]

theorem toFixed_sum_eq_self {f : Nat} {l : List ℚ} (h : ∀ x ∈ l, ∃ n : ℤ, x * 10 ^ f = (n : ℚ)) :
    toFixed f l.sum = l.sum := by
  apply toFixed_eq_self
  induction l with
  | nil => exact ⟨0, by simp⟩
  | cons a l ih =>
    obtain ⟨n, hn⟩ := h a (by simp)
    obtain ⟨m, hm⟩ := ih fun x hx => h x (by simp [hx])
    exact ⟨n + m, by push_cast [List.sum_cons, add_mul, hn, hm]; ring⟩

theorem abs_toFixed_sub (f : Nat) (q : ℚ) : |toFixed f q - q| ≤ 1 / (2 * 10 ^ f) := by
  have h10 : (0 : ℚ) < 10 ^ f := by positivity
  have h1 : (q * 10 ^ f + 1 / 2) - 1 < (Int.floor (q * 10 ^ f + 1 / 2) : ℚ) :=
    Int.sub_one_lt_floor _
  have h2 : (Int.floor (q * 10 ^ f + 1 / 2) : ℚ) ≤ q * 10 ^ f + 1 / 2 := Int.floor_le _
  have key : toFixed f q - q = ((Int.floor (q * 10 ^ f + 1 / 2) : ℚ) - q * 10 ^ f) / 10 ^ f := by
    rw [sub_div, mul_div_cancel_right₀ _ (ne_of_gt h10), toFixed]
  have habs : |(Int.floor (q * 10 ^ f + 1 / 2) : ℚ) - q * 10 ^ f| ≤ 1 / 2 :=
    abs_le.2 ⟨by linarith, by linarith⟩
  rw [key, abs_div, abs_of_pos h10, div_le_div_iff₀ h10 (by positivity)]
  nlinarith [h10, habs]

/-! Helper lemmas about the retry client. -/

theorem makeRequestWithRetry_rejected_step {ε : Type} {m a : Nat} {o : Nat → Outcome ε} {e : ε}
    (h : o a = .rejected e) (hb : a < m - 1) :
    makeRequestWithRetry m o a =
      ⟨(makeRequestWithRetry m o (a + 1)).attempts + 1,
        2 ^ a :: (makeRequestWithRetry m o (a + 1)).waits,
        (makeRequestWithRetry m o (a + 1)).result⟩ := by
  rw [makeRequestWithRetry, h]
  exact dif_pos hb

theorem makeRequestWithRetry_rejected_last {ε : Type} {m a : Nat} {o : Nat → Outcome ε} {e : ε}
    (h : o a = .rejected e) (hb : ¬ a < m - 1) :
    makeRequestWithRetry m o a = ⟨1, [], .error e⟩ := by
  rw [makeRequestWithRetry, h]
  exact dif_neg hb

theorem makeRequestWithRetry_resolved_done {ε : Type} {m a : Nat} {o : Nat → Outcome ε} {s : Nat}
    (h : o a = .resolved s) (hs : s ≠ 504) :
    makeRequestWithRetry m o a = ⟨1, [], .ok s⟩ := by
  rw [makeRequestWithRetry, h]
  exact dif_neg (by simp [hs])

theorem makeRequestWithRetry_attempts_pos {ε : Type} (m : Nat) (o : Nat → Outcome ε) (a : Nat) :
    1 ≤ (makeRequestWithRetry m o a).attempts := by
  rw [makeRequestWithRetry]
  split <;> split <;> simp

theorem makeRequestWithRetry_attempts_le {ε : Type} :
    ∀ (f m a : Nat) (o : Nat → Outcome ε), m - 1 - a = f →
      (makeRequestWithRetry m o a).attempts ≤ f + 1 := by
  intro f
  induction f with
  | zero =>
    intro m a o hf
    rw [makeRequestWithRetry]
    split <;> split
    · next h => exact absurd h (by omega)
    · simp
    · next h => exact absurd h (by omega)
    · simp
  | succ n ih =>
    intro m a o hf
    rw [makeRequestWithRetry]
    split <;> split
    · next h =>
      have := ih m (a + 1) o (by omega)
      simpa using Nat.add_le_add_right this 1
    · simp
    · next h =>
      have := ih m (a + 1) o (by omega)
      simpa using Nat.add_le_add_right this 1
    · simp

/-! Helper lemmas about the join loop. -/

theorem processReading_skip_empty {prices : List (String × ℚ)} {st : ProcState} {r : Reading}
    (h : r.t = "") : processReading prices st r = st := by
  simp [processReading, h]

theorem processReading_skip_parse {prices : List (String × ℚ)} {st : ProcState} {r : Reading}
    (h1 : ¬ r.t = "") (h2 : parseEpochMs r.t = none) : processReading prices st r = st := by
  simp [processReading, h1, h2]

theorem processReading_skip_price {prices : List (String × ℚ)} {st : ProcState} {r : Reading}
    {m : Int} (h1 : ¬ r.t = "") (h2 : parseEpochMs r.t = some m)
    (h3 : assocGet (isoString m) prices = none) : processReading prices st r = st := by
  simp [processReading, h1, h2, h3]

theorem processReading_join {prices : List (String × ℚ)} {st : ProcState} {r : Reading}
    {m : Int} {price : ℚ} (h1 : ¬ r.t = "") (h2 : parseEpochMs r.t = some m)
    (h3 : assocGet (isoString m) prices = some price) :
    processReading prices st r =
      ⟨st.combined ++ [⟨isoString m, toFixed 3 (r.v / 1000), toFixed 2 price,
          toFixed 6 (r.v / 1000 * price / 100)⟩],
        bumpMonth (monthKeyFromTs (isoString m)) (toFixed 3 (r.v / 1000))
          (toFixed 6 (r.v / 1000 * price / 100)) st.monthlyMap⟩ := by
  simp [processReading, h1, h2, h3]

theorem monthMapOf_append (es : List CombinedData) (e : CombinedData) :
    monthMapOf (es ++ [e]) =
      bumpMonth (monthKeyFromTs e.timestamp) e.consumption_kWh e.cost_euros (monthMapOf es) := by
  simp [monthMapOf, List.foldl_append]

theorem goodState_processReading {prices : List (String × ℚ)} {st : ProcState} {r : Reading}
    (h : GoodState st) : GoodState (processReading prices st r) := by
  by_cases h1 : r.t = ""
  · rw [processReading_skip_empty h1]; exact h
  · cases h2 : parseEpochMs r.t with
    | none => rw [processReading_skip_parse h1 h2]; exact h
    | some m =>
      cases h3 : assocGet (isoString m) prices with
      | none => rw [processReading_skip_price h1 h2 h3]; exact h
      | some price =>
        rw [processReading_join h1 h2 h3]
        constructor
        · show bumpMonth _ _ _ st.monthlyMap = monthMapOf (st.combined ++ [_])
          rw [monthMapOf_append, h.1]
        · intro e he
          rcases List.mem_append.1 he with he | he
          · exact h.2 e he
          · rw [List.mem_singleton.1 he]
            exact ⟨r.v, price, rfl, rfl, rfl⟩

theorem goodState_foldl_readings {prices : List (String × ℚ)} :
    ∀ (rs : List Reading) (st : ProcState), GoodState st →
      GoodState (rs.foldl (processReading prices) st) := by
  intro rs
  induction rs with
  | nil => intro st h; exact h
  | cons r rest ih => intro st h; exact ih _ (goodState_processReading h)

theorem goodState_processMonth {prices : List (String × ℚ)} {st : ProcState} {m : MonthData}
    (h : GoodState st) : GoodState (processMonth prices st m) := by
  rw [processMonth]
  cases selectReadings m with
  | none => exact h
  | some rs => exact goodState_foldl_readings rs st h

theorem goodState_foldl_months {prices : List (String × ℚ)} :
    ∀ (ms : List MonthData) (st : ProcState), GoodState st →
      GoodState (ms.foldl (processMonth prices) st) := by
  intro ms
  induction ms with
  | nil => intro st h; exact h
  | cons m rest ih => intro st h; exact ih _ (goodState_processMonth h)

theorem goodState_processResponse {prices : List (String × ℚ)} {st : ProcState}
    {resp : MeterReadingResponse} (h : GoodState st) :
    GoodState (processResponse prices st resp) :=
  goodState_foldl_months resp.months st h

theorem goodState_run (prices : List (String × ℚ)) (responses : List MeterReadingResponse) :
    GoodState (responses.foldl (processResponse prices) ⟨[], []⟩) := by
  have main : ∀ (rs : List MeterReadingResponse) (st : ProcState), GoodState st →
      GoodState (rs.foldl (processResponse prices) st) := by
    intro rs
    induction rs with
    | nil => intro st h; exact h
    | cons resp rest ih => intro st h; exact ih _ (goodState_processResponse h)
  exact main responses ⟨[], []⟩ ⟨rfl, by simp⟩

/-! Helper lemmas about the monthly accumulation map. -/

theorem bumpMonth_keys (k : String) (c w : ℚ) :
    ∀ m : List (String × MonthlyData), (bumpMonth k c w m).map (·.1) =
      if k ∈ m.map (·.1) then m.map (·.1) else m.map (·.1) ++ [k] := by
  intro m
  induction m with
  | nil => simp [bumpMonth]
  | cons p rest ih =>
    by_cases hk : p.1 = k
    · simp [bumpMonth, hk]
    · rw [show bumpMonth k c w (p :: rest) = p :: bumpMonth k c w rest by
        simp [bumpMonth, hk]]
      by_cases hmem : k ∈ rest.map (·.1)
      · simp [hmem, ih, Ne.symm hk]
      · simp [hmem, ih, Ne.symm hk]

theorem bumpMonth_nodupKeys {k : String} {c w : ℚ} {m : List (String × MonthlyData)}
    (h : (m.map (·.1)).Nodup) : ((bumpMonth k c w m).map (·.1)).Nodup := by
  rw [bumpMonth_keys]
  by_cases hmem : k ∈ m.map (·.1)
  · simpa [hmem] using h
  · simp only [hmem, if_false]
    rw [List.nodup_append]
    exact ⟨h, List.nodup_singleton k, by simpa using hmem⟩

theorem assocGet_bumpMonth_self (k : String) (c w : ℚ) :
    ∀ m : List (String × MonthlyData), assocGet k (bumpMonth k c w m) =
      some (match assocGet k m with
        | none => ⟨k, c, 0, w⟩
        | some d => ⟨d.month, d.totalConsumption + c, d.averagePrice, d.totalCost + w⟩) := by
  intro m
  induction m with
  | nil => simp [bumpMonth, assocGet]
  | cons p rest ih =>
    by_cases hk : p.1 = k
    · simp [bumpMonth, assocGet, hk]
    · simp [bumpMonth, assocGet, hk, ih]

theorem assocGet_bumpMonth_ne {k k' : String} (c w : ℚ) (h : k ≠ k') :
    ∀ m : List (String × MonthlyData), assocGet k' (bumpMonth k c w m) = assocGet k' m := by
  intro m
  induction m with
  | nil => simp [bumpMonth, assocGet, h]
  | cons p rest ih =>
    by_cases hk : p.1 = k
    · simp [bumpMonth, assocGet, hk, h]
    · simp [bumpMonth, assocGet, hk, ih]

theorem monthMembers_append (k : String) (es : List CombinedData) (e : CombinedData) :
    monthMembers k (es ++ [e]) =
      monthMembers k es ++ (if monthKeyFromTs e.timestamp = k then [e] else []) := by
  rw [monthMembers, List.filter_append]
  by_cases hk : monthKeyFromTs e.timestamp = k
  · simp [monthMembers, hk]
  · simp [monthMembers, hk]

theorem assocGet_monthMapOf (es : List CombinedData) (k : String) :
    assocGet k (monthMapOf es) =
      if monthMembers k es = [] then none
      else some ⟨k, sumCons (monthMembers k es), 0, sumCost (monthMembers k es)⟩ := by
  induction es using List.reverseRecOn with
  | nil => simp [monthMapOf, assocGet, monthMembers]
  | append_singleton es e ih =>
    rw [monthMapOf_append, monthMembers_append]
    by_cases hk : monthKeyFromTs e.timestamp = k
    · rw [hk, assocGet_bumpMonth_self, ih]
      by_cases h0 : monthMembers k es = []
      · simp [h0, sumCons, sumCost]
      · simp only [h0, if_false, if_neg (by simp [h0] : ¬ monthMembers k es ++
          (if True then [e] else []) = [])]
        simp [h0, hk, sumCons, sumCost]
    · rw [assocGet_bumpMonth_ne _ _ hk, ih]
      simp [hk]

theorem monthMapOf_nodupKeys (es : List CombinedData) : ((monthMapOf es).map (·.1)).Nodup := by
  induction es using List.reverseRecOn with
  | nil => simp [monthMapOf]
  | append_singleton es e ih =>
    rw [monthMapOf_append]
    exact bumpMonth_nodupKeys ih

theorem assocGet_of_mem_nodup {α : Type} :
    ∀ (m : List (String × α)) (p : String × α), (m.map (·.1)).Nodup → p ∈ m →
      assocGet p.1 m = some p.2 := by
  intro m
  induction m with
  | nil => intro p _ hp; cases hp
  | cons q rest ih =>
    intro p hnd hp
    rcases List.mem_cons.1 hp with rfl | hp
    · simp [assocGet]
    · have hne : q.1 ≠ p.1 := by
        intro hq
        have : p.1 ∈ rest.map (·.1) := List.mem_map.2 ⟨p, hp, rfl⟩
        rw [List.map_cons, List.nodup_cons] at hnd
        exact hnd.1 (hq ▸ this)
      rw [assocGet, if_neg hne]
      exact ih p (by rw [List.map_cons, List.nodup_cons] at hnd; exact hnd.2) hp

theorem mem_monthMapOf_char {es : List CombinedData} {p : String × MonthlyData}
    (hp : p ∈ monthMapOf es) :
    monthMembers p.1 es ≠ [] ∧
      p.2 = ⟨p.1, sumCons (monthMembers p.1 es), 0, sumCost (monthMembers p.1 es)⟩ := by
  have hget := assocGet_of_mem_nodup _ p (monthMapOf_nodupKeys es) hp
  rw [assocGet_monthMapOf] at hget
  by_cases h0 : monthMembers p.1 es = []
  · rw [if_pos h0] at hget; cases hget
  · rw [if_neg h0] at hget
    exact ⟨h0, (Option.some_injective _ hget).symm⟩

/-- Sortedness plus distinct keys yields strict pairwise ordering. -/
theorem pairwise_lt_of_sorted_nodup {α β : Type} [LinearOrder β] {l : List α} (key : α → β)
    (hs : l.Pairwise (fun a b => key a ≤ key b)) (hn : (l.map key).Nodup) :
    l.Pairwise (fun a b => key a < key b) := by
  have hne : l.Pairwise (fun a b => key a ≠ key b) := (List.pairwise_map).1 hn
  exact (hs.and hne).imp fun h => lt_of_le_of_ne h.1 h.2

theorem toFixed_zero (f : Nat) : toFixed f 0 = 0 :=
  toFixed_eq_self ⟨0, by norm_num⟩

/-! Concrete evaluations of the reconciliation pipeline on the fixtures. -/

theorem combineDataPure_eq_sorted (rs : List MeterReadingResponse) (ps : List PriceData) :
    combineDataPure rs ps =
      ⟨"", List.insertionSort hourlyLE
          (rs.foldl (processResponse (buildPriceMap ps)) ⟨[], []⟩).combined,
        List.insertionSort monthlyLE
          (((rs.foldl (processResponse (buildPriceMap ps)) ⟨[], []⟩).monthlyMap.map
            (·.2)).map finalizeMonth)⟩ := rfl

theorem runA : combineDataPure responsesA pricesA = ⟨"", [entryA], [summaryA]⟩ := by
  have hput : parseEpochMs "2024-01-01T00:00:00Z" = some 1704067200000 := by rfl
  have hploc : parseEpochMs "2024-01-01T02:00:00+02:00" = some 1704067200000 := by rfl
  have hiso : isoString 1704067200000 = "2024-01-01T00:00:00.000Z" := by rfl
  have hz : withZ "2024-01-01T00:00:00Z" = "2024-01-01T00:00:00Z" := by rfl
  have hmk : monthKeyFromTs "2024-01-01T00:00:00.000Z" = "2024-01" := by rfl
  have hprices : buildPriceMap pricesA = [("2024-01-01T00:00:00.000Z", (628 : ℚ) / 100)] := by
    simp only [pricesA, buildPriceMap, List.filterMap_cons, List.filterMap_nil,
      normalizePriceTs, hz, hput, Option.map_some', hiso, List.foldl_cons, List.foldl_nil,
      assocSet]
  have hget : assocGet (isoString 1704067200000)
      [("2024-01-01T00:00:00.000Z", (628 : ℚ) / 100)] = some (628 / 100) := by
    rw [hiso]; simp [assocGet]
  have hst : responsesA.foldl (processResponse (buildPriceMap pricesA)) ⟨[], []⟩
      = ⟨[⟨"2024-01-01T00:00:00.000Z", toFixed 3 (1500 / 1000), toFixed 2 (628 / 100),
            toFixed 6 (1500 / 1000 * (628 / 100) / 100)⟩],
          [("2024-01", ⟨"2024-01", toFixed 3 (1500 / 1000), 0,
            toFixed 6 (1500 / 1000 * (628 / 100) / 100)⟩)]⟩ := by
    rw [hprices]
    simp only [responsesA, List.foldl_cons, List.foldl_nil, processResponse, processMonth]
    rw [show selectReadings ⟨some "1", none, some [⟨"2024-01-01T02:00:00+02:00", 1500⟩]⟩
        = some [⟨"2024-01-01T02:00:00+02:00", 1500⟩] from rfl]
    simp only [List.foldl_cons, List.foldl_nil]
    rw [processReading_join (by simp) hploc hget]
    simp only [List.nil_append, hiso, hmk, bumpMonth]
  rw [combineDataPure_eq_sorted, hst]
  simp only [List.map_cons, List.map_nil, List.insertionSort, List.orderedInsert, finalizeMonth]
  norm_num [toFixed, entryA, summaryA, YearData.mk.injEq, CombinedData.mk.injEq,
    MonthlyData.mk.injEq]

theorem runB : combineDataPure responsesB pricesB = ⟨"",
    [entryB], [⟨"2024-01", 1, 10, 1 / 10⟩]⟩ := by
  have hput : parseEpochMs "2024-01-01T00:00:00Z" = some 1704067200000 := by rfl
  have hploc : parseEpochMs "2024-01-01T02:00:00+02:00" = some 1704067200000 := by rfl
  have hiso : isoString 1704067200000 = "2024-01-01T00:00:00.000Z" := by rfl
  have hz : withZ "2024-01-01T00:00:00Z" = "2024-01-01T00:00:00Z" := by rfl
  have hmk : monthKeyFromTs "2024-01-01T00:00:00.000Z" = "2024-01" := by rfl
  have hprices : buildPriceMap pricesB = [("2024-01-01T00:00:00.000Z", (10 : ℚ))] := by
    simp only [pricesB, buildPriceMap, List.filterMap_cons, List.filterMap_nil,
      normalizePriceTs, hz, hput, Option.map_some', hiso, List.foldl_cons, List.foldl_nil,
      assocSet]
  have hget : assocGet (isoString 1704067200000)
      [("2024-01-01T00:00:00.000Z", (10 : ℚ))] = some 10 := by
    rw [hiso]; simp [assocGet]
  have hst : responsesB.foldl (processResponse (buildPriceMap pricesB)) ⟨[], []⟩
      = ⟨[⟨"2024-01-01T00:00:00.000Z", toFixed 3 (10004 / 10 / 1000), toFixed 2 10,
            toFixed 6 (10004 / 10 / 1000 * 10 / 100)⟩],
          [("2024-01", ⟨"2024-01", toFixed 3 (10004 / 10 / 1000), 0,
            toFixed 6 (10004 / 10 / 1000 * 10 / 100)⟩)]⟩ := by
    rw [hprices]
    simp only [responsesB, List.foldl_cons, List.foldl_nil, processResponse, processMonth]
    rw [show selectReadings ⟨some "1", none, some [⟨"2024-01-01T02:00:00+02:00", 10004 / 10⟩]⟩
        = some [⟨"2024-01-01T02:00:00+02:00", 10004 / 10⟩] from rfl]
    simp only [List.foldl_cons, List.foldl_nil]
    rw [processReading_join (by simp) hploc hget]
    simp only [List.nil_append, hiso, hmk, bumpMonth]
  rw [combineDataPure_eq_sorted, hst]
  simp only [List.map_cons, List.map_nil, List.insertionSort, List.orderedInsert, finalizeMonth]
  norm_num [toFixed, entryB, YearData.mk.injEq, CombinedData.mk.injEq, MonthlyData.mk.injEq]

theorem runC : combineDataPure responsesC pricesB = ⟨"", [entryC, entryC], [summaryC]⟩ := by
  have hput : parseEpochMs "2024-01-01T00:00:00Z" = some 1704067200000 := by rfl
  have hploc : parseEpochMs "2024-01-01T02:00:00+02:00" = some 1704067200000 := by rfl
  have hiso : isoString 1704067200000 = "2024-01-01T00:00:00.000Z" := by rfl
  have hz : withZ "2024-01-01T00:00:00Z" = "2024-01-01T00:00:00Z" := by rfl
  have hmk : monthKeyFromTs "2024-01-01T00:00:00.000Z" = "2024-01" := by rfl
  have hkey : parseEpochMs "2024-01-01T00:00:00.000Z" = some 1704067200000 := by rfl
  have hprices : buildPriceMap pricesB = [("2024-01-01T00:00:00.000Z", (10 : ℚ))] := by
    simp only [pricesB, buildPriceMap, List.filterMap_cons, List.filterMap_nil,
      normalizePriceTs, hz, hput, Option.map_some', hiso, List.foldl_cons, List.foldl_nil,
      assocSet]
  have hget : assocGet (isoString 1704067200000)
      [("2024-01-01T00:00:00.000Z", (10 : ℚ))] = some 10 := by
    rw [hiso]; simp [assocGet]
  have hst : responsesC.foldl (processResponse (buildPriceMap pricesB)) ⟨[], []⟩
      = ⟨[⟨"2024-01-01T00:00:00.000Z", toFixed 3 (1000 / 1000), toFixed 2 10,
            toFixed 6 (1000 / 1000 * 10 / 100)⟩,
          ⟨"2024-01-01T00:00:00.000Z", toFixed 3 (1000 / 1000), toFixed 2 10,
            toFixed 6 (1000 / 1000 * 10 / 100)⟩],
          [("2024-01", ⟨"2024-01", toFixed 3 (1000 / 1000) + toFixed 3 (1000 / 1000), 0,
            toFixed 6 (1000 / 1000 * 10 / 100) + toFixed 6 (1000 / 1000 * 10 / 100)⟩)]⟩ := by
    rw [hprices]
    simp only [responsesC, List.foldl_cons, List.foldl_nil, processResponse, processMonth]
    rw [show selectReadings ⟨some "1", none, some [⟨"2024-01-01T02:00:00+02:00", 1000⟩,
        ⟨"2024-01-01T02:00:00+02:00", 1000⟩]⟩
        = some [⟨"2024-01-01T02:00:00+02:00", 1000⟩, ⟨"2024-01-01T02:00:00+02:00", 1000⟩]
        from rfl]
    simp only [List.foldl_cons, List.foldl_nil]
    rw [processReading_join (by simp) hploc hget]
    rw [processReading_join (by simp) hploc hget]
    simp only [hiso, hmk, bumpMonth, List.cons_append, List.nil_append, if_true]
  rw [combineDataPure_eq_sorted, hst]
  have hle : hourlyLE ⟨"2024-01-01T00:00:00.000Z", toFixed 3 (1000 / 1000), toFixed 2 10,
      toFixed 6 (1000 / 1000 * 10 / 100)⟩ ⟨"2024-01-01T00:00:00.000Z", toFixed 3 (1000 / 1000),
      toFixed 2 10, toFixed 6 (1000 / 1000 * 10 / 100)⟩ := le_refl _
  simp only [List.map_cons, List.map_nil, List.insertionSort, List.orderedInsert,
    if_pos hle, finalizeMonth]
  norm_num [toFixed, entryC, summaryC, YearData.mk.injEq, CombinedData.mk.injEq,
    MonthlyData.mk.injEq]

end SahkonKulutus

namespace SahkonKulutus

/-- C5: when the fresh fetch-and-reconcile pipeline fails with any error,
a present cached dataset (stale or not) is returned with no error, and
with no cached dataset the same error propagates to the caller. -/
theorem c5_stale_cache_fallback (cached : Option YearData) (needsUpdate : YearData → Bool)
    (fetched : Except String (List MeterReadingResponse × List PriceData)) (e : String)
    (hf : fetched = .error e) :
    (∀ c, cached = some c → combineDataFlow cached needsUpdate fetched = .ok c) ∧
    (cached = none → combineDataFlow cached needsUpdate fetched = .error e) := by
  subst hf
  constructor
  · intro c hc
    subst hc
    rw [combineDataFlow]
    cases h : needsUpdate c <;> simp
  · intro hc
    subst hc
    rfl

/-- Witness for C5 at a concrete stale cached dataset and failing fetch. -/
theorem c5_stale_cache_fallback_witness :
    combineDataFlow (some ⟨"2024-06-01", [], []⟩) (fun _ => true)
      (.error "FetchExhaustedError") = .ok ⟨"2024-06-01", [], []⟩ :=
  (c5_stale_cache_fallback (some ⟨"2024-06-01", [], []⟩) (fun _ => true)
    (.error "FetchExhaustedError") "FetchExhaustedError" rfl).1 _ rfl

/-- C6 (amended): the retry client does not distinguish error kinds: any
rejected first attempt — including a non-transient authentication
failure — is retried when budget remains, and only a resolved non-504
response returns immediately after a single attempt. -/
theorem c6_retry_policy_amended (o : Nat → Outcome String) (e : String) (s : Nat) :
    (o 0 = .rejected e → 2 ≤ (makeRequestWithRetry eleniaMaxRetries o 0).attempts) ∧
    (o 0 = .resolved s → s ≠ 504 →
      makeRequestWithRetry eleniaMaxRetries o 0 = ⟨1, [], .ok s⟩) := by
  constructor
  · intro h
    rw [makeRequestWithRetry_rejected_step h (by simp [eleniaMaxRetries])]
    have := makeRequestWithRetry_attempts_pos eleniaMaxRetries o 1
    simpa using Nat.add_le_add_right this 1
  · intro h hs
    exact makeRequestWithRetry_resolved_done h hs

/-- Witness for C6's amended statement: a rejected first attempt is
retried, a resolved 200 returns at once. -/
theorem c6_retry_policy_amended_witness :
    2 ≤ (makeRequestWithRetry eleniaMaxRetries (fun _ => .rejected "InvalidCredentials") 0).attempts ∧
    makeRequestWithRetry eleniaMaxRetries (fun _ => (.resolved 200 : Outcome String)) 0
      = ⟨1, [], .ok 200⟩ :=
  ⟨(c6_retry_policy_amended (fun _ => .rejected "InvalidCredentials") "InvalidCredentials" 200).1 rfl,
   (c6_retry_policy_amended (fun _ => (.resolved 200 : Outcome String)) "InvalidCredentials" 200).2
     rfl (by decide)⟩

/-- Counterexample to C6 as stated: a request whose every attempt fails
with a non-transient authentication error is retried to the full budget
of 5 attempts rather than failing immediately after the first. -/
theorem c6_auth_retry_counterexample :
    (makeRequestWithRetry eleniaMaxRetries (fun _ => .rejected "InvalidCredentials") 0).attempts = 5 ∧
    (makeRequestWithRetry eleniaMaxRetries (fun _ => .rejected "InvalidCredentials") 0).attempts ≠ 1 := by
  have h : ∀ i : Nat, (fun _ : Nat => (Outcome.rejected "InvalidCredentials" : Outcome String)) i
      = .rejected "InvalidCredentials" := fun _ => rfl
  have hrun : makeRequestWithRetry eleniaMaxRetries (fun _ => .rejected "InvalidCredentials") 0
      = ⟨5, [1, 2, 4, 8], .error "InvalidCredentials"⟩ := by
    rw [makeRequestWithRetry_rejected_step (h 0) (by decide),
        makeRequestWithRetry_rejected_step (h 1) (by decide),
        makeRequestWithRetry_rejected_step (h 2) (by decide),
        makeRequestWithRetry_rejected_step (h 3) (by decide),
        makeRequestWithRetry_rejected_last (h 4) (by decide)]
    rfl
  rw [hrun]
  exact ⟨rfl, by decide⟩

/-- C7: a request that fails transiently on every attempt makes exactly
`maxRetries = 5` attempts (never a sixth), waits 1, 2, 4, 8 seconds
before the retries (15 seconds in total), and finally fails with the
last underlying error; and no run whatsoever exceeds 5 attempts. -/
theorem c7_retry_budget (o : Nat → Outcome String) (errs : Nat → String)
    (h : ∀ i, i < 5 → o i = .rejected (errs i)) :
    makeRequestWithRetry eleniaMaxRetries o 0 = ⟨5, [1, 2, 4, 8], .error (errs 4)⟩ ∧
    (makeRequestWithRetry eleniaMaxRetries o 0).waits.sum = 15 ∧
    (∀ o' : Nat → Outcome String, (makeRequestWithRetry eleniaMaxRetries o' 0).attempts ≤ 5) := by
  have h0 := h 0 (by omega)
  have h1 := h 1 (by omega)
  have h2 := h 2 (by omega)
  have h3 := h 3 (by omega)
  have h4 := h 4 (by omega)
  have hrun : makeRequestWithRetry eleniaMaxRetries o 0 = ⟨5, [1, 2, 4, 8], .error (errs 4)⟩ := by
    rw [makeRequestWithRetry_rejected_step h0 (by decide),
        makeRequestWithRetry_rejected_step h1 (by decide),
        makeRequestWithRetry_rejected_step h2 (by decide),
        makeRequestWithRetry_rejected_step h3 (by decide),
        makeRequestWithRetry_rejected_last h4 (by decide)]
    rfl
  refine ⟨hrun, by rw [hrun]; rfl, fun o' => ?_⟩
  have := makeRequestWithRetry_attempts_le 4 eleniaMaxRetries 0 o' (by rfl)
  simpa using this

/-- Witness for C7 at a concrete always-failing outcome sequence. -/
theorem c7_retry_budget_witness :
    makeRequestWithRetry eleniaMaxRetries (fun i => .rejected (toString i)) 0
      = ⟨5, [1, 2, 4, 8], .error "4"⟩ :=
  (c7_retry_budget (fun i => .rejected (toString i)) (fun i => toString i)
    (fun _ _ => rfl)).1

/-- C1 (amended): a consumption reading and a price entry denoting the
same instant always normalize to byte-identical join keys; for the
DST-transition scenario both keys are `"2024-03-31T00:30:00.000Z"`
(millisecond precision, not `"2024-03-31T00:30:00Z"`).  The upstream
25.5% markup on the raw value 5.0 evaluates in the program's IEEE
arithmetic to 6.27 c/kWh (`5 * 1.255 = 6.2749999999999995` rounds down,
not to 6.28), and joining that marked-up price entry yields the record
`{consumptionKWh: 1.5, priceCentsPerKWh: 6.27, costCurrency: 0.09405}`;
at these values every remaining rounding step is tie-free, so the exact
model below agrees with the IEEE evaluation. -/
theorem c1_normalization_amended :
    (∀ (t ts : String) (m : Int), parseEpochMs t = some m → parseEpochMs (withZ ts) = some m →
      normalizeEleniaTs t = normalizePriceTs ts) ∧
    normalizeEleniaTs "2024-03-31T02:30:00+02:00" = some "2024-03-31T00:30:00.000Z" ∧
    normalizePriceTs "2024-03-31T00:30:00Z" = some "2024-03-31T00:30:00.000Z" ∧
    (combineDataPure [⟨[⟨some "3", none, some [⟨"2024-03-31T02:30:00+02:00", 1500⟩]⟩]⟩]
        [⟨"2024-03-31T00:30:00Z", 627 / 100⟩]).hourly =
      [⟨"2024-03-31T00:30:00.000Z", 15 / 10, 627 / 100, 9405 / 100000⟩] := by
  have hploc : parseEpochMs "2024-03-31T02:30:00+02:00" = some 1711845000000 := by rfl
  have hputc : parseEpochMs "2024-03-31T00:30:00Z" = some 1711845000000 := by rfl
  have hiso : isoString 1711845000000 = "2024-03-31T00:30:00.000Z" := by rfl
  have hz : withZ "2024-03-31T00:30:00Z" = "2024-03-31T00:30:00Z" := by rfl
  refine ⟨?_, by rfl, ?_, ?_⟩
  · intro t ts m h1 h2
    rw [normalizeEleniaTs, normalizePriceTs, h1, h2]
  · rw [normalizePriceTs, hz, hputc, Option.map_some', hiso]
  · have hprices : buildPriceMap [⟨"2024-03-31T00:30:00Z", 627 / 100⟩]
        = [("2024-03-31T00:30:00.000Z", 627 / 100)] := by
      simp only [buildPriceMap, List.filterMap_cons, List.filterMap_nil, normalizePriceTs,
        hz, hputc, Option.map_some', hiso, List.foldl_cons, List.foldl_nil, assocSet]
    have hget : assocGet (isoString 1711845000000)
        [("2024-03-31T00:30:00.000Z", (627 : ℚ) / 100)] = some (627 / 100) := by
      rw [hiso]; simp [assocGet]
    rw [combineDataPure, hprices]
    simp only [List.foldl_cons, List.foldl_nil, processResponse, processMonth]
    rw [show selectReadings ⟨some "3", none, some [⟨"2024-03-31T02:30:00+02:00", 1500⟩]⟩
        = some [⟨"2024-03-31T02:30:00+02:00", 1500⟩] from rfl]
    simp only [List.foldl_cons, List.foldl_nil]
    rw [processReading_join (by simp) hploc hget]
    simp only [List.nil_append, List.insertionSort, List.orderedInsert, hiso]
    rw [List.cons.injEq]
    refine ⟨?_, rfl⟩
    rw [CombinedData.mk.injEq]
    refine ⟨rfl, ?_, ?_, ?_⟩ <;> norm_num [toFixed]

/-- Witness for C1's amended statement at the DST-transition instants. -/
theorem c1_normalization_amended_witness :
    normalizeEleniaTs "2024-03-31T02:30:00+02:00" = normalizePriceTs "2024-03-31T00:30:00Z" :=
  c1_normalization_amended.1 "2024-03-31T02:30:00+02:00" "2024-03-31T00:30:00Z"
    1711845000000 (by rfl) (by rfl)

/-- Counterexample to C1 as stated: neither side normalizes to the
claimed key `"2024-03-31T00:30:00Z"` — the canonical key carries a
`.000` millisecond field. -/
theorem c1_key_format_counterexample :
    normalizePriceTs "2024-03-31T00:30:00Z" ≠ some "2024-03-31T00:30:00Z" ∧
    normalizeEleniaTs "2024-03-31T02:30:00+02:00" ≠ some "2024-03-31T00:30:00Z" := by
  constructor <;> decide

/-- C2: a month whose netted variant is non-empty is consumed through
exactly those netted readings — the gross variant has no influence on the
join loop — and the gross variant is selected only when the netted
variant is empty or absent. -/
theorem c2_netted_supersedes_gross :
    (∀ (m : MonthData) (l : List Reading), m.hourly_values_netted = some l → l ≠ [] →
      selectReadings m = some l ∧
      ∀ (prices : List (String × ℚ)) (st : ProcState) (g g' : Option (List Reading)),
        processMonth prices st ⟨m.month, m.hourly_values_netted, g⟩ =
          processMonth prices st ⟨m.month, m.hourly_values_netted, g'⟩) ∧
    (∀ m : MonthData, (m.hourly_values_netted = none ∨ m.hourly_values_netted = some []) →
      selectReadings m =
        match m.hourly_values with
        | some (r :: rs) => some (r :: rs)
        | _ => none) := by
  constructor
  · rintro ⟨mo, nv, hv⟩ l h hne
    simp only at h
    subst h
    match l, hne with
    | r :: rs, _ =>
      constructor
      · simp [selectReadings]
      · intro prices st g g'
        simp [processMonth, selectReadings]
  · rintro ⟨mo, nv, hv⟩ (h | h) <;> simp only at h <;> subst h <;>
      rcases hv with _ | ⟨_ | ⟨r, rs⟩⟩ <;> simp [selectReadings]

/-- Witness for C2 at a concrete month with both variants populated:
the netted readings are selected and the gross readings are irrelevant. -/
theorem c2_netted_supersedes_gross_witness :
    selectReadings ⟨some "2024-02", some [⟨"2024-02-01T02:00:00+02:00", 500⟩],
        some [⟨"2024-02-01T02:00:00+02:00", 999⟩]⟩
      = some [⟨"2024-02-01T02:00:00+02:00", 500⟩] ∧
    processMonth [] ⟨[], []⟩ ⟨some "2024-02", some [⟨"2024-02-01T02:00:00+02:00", 500⟩],
        some [⟨"2024-02-01T02:00:00+02:00", 999⟩]⟩
      = processMonth [] ⟨[], []⟩ ⟨some "2024-02", some [⟨"2024-02-01T02:00:00+02:00", 500⟩],
        none⟩ :=
  ⟨(c2_netted_supersedes_gross.1 ⟨some "2024-02", some [⟨"2024-02-01T02:00:00+02:00", 500⟩],
      some [⟨"2024-02-01T02:00:00+02:00", 999⟩]⟩ [⟨"2024-02-01T02:00:00+02:00", 500⟩]
      rfl (by decide)).1,
   (c2_netted_supersedes_gross.1 ⟨some "2024-02", some [⟨"2024-02-01T02:00:00+02:00", 500⟩],
      some [⟨"2024-02-01T02:00:00+02:00", 999⟩]⟩ [⟨"2024-02-01T02:00:00+02:00", 500⟩]
      rfl (by decide)).2 [] ⟨[], []⟩ (some [⟨"2024-02-01T02:00:00+02:00", 999⟩]) none⟩

/-- C9 (amended): the yearly price series applies a fixed 25.5% markup
and the current-instant price a fixed 24% markup — two different fixed
percentages, each applied as `value * (1 + markupPercent/100)` rounded to
2 decimal places before the user-configurable margin. -/
theorem c9_markup_amended (rows out : List PriceData) (h : fetchPriceData rows = some out) :
    List.Forall₂ (fun r o => o.value = toFixed 2 (r.value * (1 + 255 / 10 / 100))) rows out ∧
    ∀ v : ℚ, getCurrentSpotPrice v = toFixed 2 (v * (1 + 24 / 100)) := by
  have hr : ((255 : ℚ) / 10 / 100) = VAT_RATE := by norm_num [VAT_RATE]
  refine ⟨?_, fun v => rfl⟩
  induction rows generalizing out with
  | nil =>
    rw [fetchPriceData] at h
    cases h
    exact List.Forall₂.nil
  | cons row rest ih =>
    rw [fetchPriceData] at h
    cases hp : processPriceRow row with
    | none => rw [hp] at h; cases h
    | some r =>
      cases hrest : fetchPriceData rest with
      | none => rw [hp, hrest] at h; cases h
      | some rs =>
        rw [hp, hrest] at h
        cases h
        refine List.Forall₂.cons ?_ (ih rs hrest)
        obtain ⟨mval, hmval, hrow⟩ := Option.map_eq_some'.1 hp
        rw [← hrow, hr]

/-- Witness for C9's amended statement at one concrete row and value. -/
theorem c9_markup_amended_witness :
    List.Forall₂ (fun r o : PriceData => o.value = toFixed 2 (r.value * (1 + 255 / 10 / 100)))
      [⟨"2024-06-01T10:00:00Z", 4⟩] [⟨"2024-06-01T10:00:00Z", 251 / 50⟩] ∧
    ∀ v : ℚ, getCurrentSpotPrice v = toFixed 2 (v * (1 + 24 / 100)) :=
  c9_markup_amended [⟨"2024-06-01T10:00:00Z", 4⟩] [⟨"2024-06-01T10:00:00Z", 251 / 50⟩] (by
    have hp : parseEpochMs "2024-06-01T10:00:00Z" = some 1717236000000 := by rfl
    have hiso : isoString 1717236000000 = "2024-06-01T10:00:00.000Z" := by rfl
    have hstrip : stripMs000Z "2024-06-01T10:00:00.000Z" = "2024-06-01T10:00:00Z" := by rfl
    simp only [fetchPriceData, processPriceRow, hp, Option.map_some', hiso, hstrip, VAT_RATE]
    norm_num [toFixed])

/-- Counterexample to C9 as stated: the same raw value 100 becomes 125.5
through the yearly price pipeline but 124 through the current-instant
price — the two markups differ. -/
theorem c9_markup_counterexample :
    fetchPriceData [⟨"2024-06-01T10:00:00Z", 100⟩]
      = some [⟨"2024-06-01T10:00:00Z", 1255 / 10⟩] ∧
    getCurrentSpotPrice 100 = 124 ∧ ((1255 : ℚ) / 10) ≠ 124 := by
  have hp : parseEpochMs "2024-06-01T10:00:00Z" = some 1717236000000 := by rfl
  have hiso : isoString 1717236000000 = "2024-06-01T10:00:00.000Z" := by rfl
  have hstrip : stripMs000Z "2024-06-01T10:00:00.000Z" = "2024-06-01T10:00:00Z" := by rfl
  refine ⟨?_, ?_, by norm_num⟩
  · simp only [fetchPriceData, processPriceRow, hp, Option.map_some', hiso, hstrip, VAT_RATE]
    norm_num [toFixed]
  · norm_num [getCurrentSpotPrice, SPOT_VAT_RATE, toFixed]

/-- C10 (amended): after the consumption-fetch normalization, a month
with a non-empty netted variant keeps only the converted netted readings
(gross cleared to `undefined`), a month with an empty or absent netted
variant and non-empty gross variant keeps only the converted gross
readings (netted cleared), and no month ever ends with both variants
non-empty; however, a month whose two variants are both present and empty
is returned unchanged, with both fields still defined. -/
theorem c10_variant_exclusivity_amended (conv : String → String) (m : MonthData) :
    (∀ l, m.hourly_values_netted = some l → l ≠ [] →
      normalizeMonth conv m = ⟨m.month, some (l.map (convertReading conv)), none⟩) ∧
    ((m.hourly_values_netted = none ∨ m.hourly_values_netted = some []) →
      ∀ l, m.hourly_values = some l → l ≠ [] →
        normalizeMonth conv m = ⟨m.month, none, some (l.map (convertReading conv))⟩) ∧
    (∀ l₁ l₂, (normalizeMonth conv m).hourly_values_netted = some l₁ →
      (normalizeMonth conv m).hourly_values = some l₂ → l₁ = [] ∨ l₂ = []) := by
  rcases m with ⟨mo, nv, hv⟩
  refine ⟨?_, ?_, ?_⟩
  · rintro l h hne
    simp only at h
    subst h
    match l, hne with
    | r :: rs, _ => simp [normalizeMonth]
  · rintro (h | h) <;> simp only at h <;> subst h <;> rintro l h' hne <;> simp only at h' <;>
      subst h' <;>
      (match l, hne with
       | r :: rs, _ => simp [normalizeMonth])
  · rintro l₁ l₂ h₁ h₂
    rcases nv with _ | ⟨_ | ⟨n, ns⟩⟩ <;> rcases hv with _ | ⟨_ | ⟨g, gs⟩⟩ <;>
      simp [normalizeMonth] at h₁ h₂ <;> simp_all

/-- Witness for C10's amended statement: a month with non-empty netted
and non-empty gross variants keeps only the netted readings. -/
theorem c10_variant_exclusivity_amended_witness :
    normalizeMonth id ⟨some "2024-03", some [⟨"t1", 5⟩], some [⟨"t2", 7⟩]⟩
      = ⟨some "2024-03", some [⟨"t1", 5⟩], none⟩ := by
  have h := (c10_variant_exclusivity_amended id
    ⟨some "2024-03", some [⟨"t1", 5⟩], some [⟨"t2", 7⟩]⟩).1 [⟨"t1", 5⟩] rfl (by decide)
  simpa [convertReading] using h

/-- Counterexample to C10 as stated: a month whose two variants are both
present but empty keeps both fields defined after normalization, so the
returned series does not satisfy "at most one reading variant defined". -/
theorem c10_both_empty_counterexample :
    (normalizeMonth id ⟨some "2024-01", some [], some []⟩).hourly_values_netted = some [] ∧
    (normalizeMonth id ⟨some "2024-01", some [], some []⟩).hourly_values = some [] := by
  constructor <;> rfl

/-- C3 (amended): every emitted record's fields are the rounded images of
a raw watt-hour value and a raw price, with the cost computed from the
pre-rounding values `cost = round6(rawKWh * rawPrice / 100)`; this
coincides with the claimed stored-field formula exactly when the raw
watt-hours are an integer and the raw price has at most 2 decimals. -/
theorem c3_cost_formula_amended (rs : List MeterReadingResponse) (ps : List PriceData)
    (e : CombinedData) (he : e ∈ (combineDataPure rs ps).hourly) :
    ∃ v p : ℚ, e.consumption_kWh = toFixed 3 (v / 1000) ∧ e.price_cents_per_kWh = toFixed 2 p ∧
      e.cost_euros = toFixed 6 (v / 1000 * p / 100) ∧
      ((∃ n : ℤ, v = (n : ℚ)) → (∃ n : ℤ, p * 100 = (n : ℚ)) →
        e.cost_euros = toFixed 6 (e.consumption_kWh * e.price_cents_per_kWh / 100)) := by
  have gs := goodState_run (buildPriceMap ps) rs
  have he' : e ∈ List.insertionSort hourlyLE
      (rs.foldl (processResponse (buildPriceMap ps)) ⟨[], []⟩).combined := he
  have hmem := (List.perm_insertionSort hourlyLE _).mem_iff.1 he'
  obtain ⟨v, p, h1, h2, h3⟩ := gs.2 e hmem
  refine ⟨v, p, h1, h2, h3, ?_⟩
  rintro ⟨n, rfl⟩ ⟨n2, hn2⟩
  have hc : toFixed 3 ((n : ℚ) / 1000) = (n : ℚ) / 1000 :=
    toFixed_eq_self ⟨n, by field_simp; norm_num⟩
  have hp2 : toFixed 2 p = p := toFixed_eq_self ⟨n2, by rw [← hn2]; norm_num⟩
  rw [h3, h1, h2, hc, hp2]

/-- Witness for C3's amended statement at the fractional-reading record. -/
theorem c3_cost_formula_amended_witness :
    ∃ v p : ℚ, entryB.consumption_kWh = toFixed 3 (v / 1000) ∧
      entryB.price_cents_per_kWh = toFixed 2 p ∧
      entryB.cost_euros = toFixed 6 (v / 1000 * p / 100) ∧
      ((∃ n : ℤ, v = (n : ℚ)) → (∃ n : ℤ, p * 100 = (n : ℚ)) →
        entryB.cost_euros = toFixed 6 (entryB.consumption_kWh * entryB.price_cents_per_kWh / 100)) :=
  c3_cost_formula_amended responsesB pricesB entryB (by
    rw [show (combineDataPure responsesB pricesB).hourly = [entryB] from
      congrArg YearData.hourly runB]
    exact List.mem_singleton.2 rfl)

/-- Counterexample to C3 as stated: for a reading of 1000.4 Wh at price
10 c/kWh the emitted record stores consumption 1.000 and price 10 but
cost 0.10004 — the cost comes from the unrounded 1.0004 kWh, not from the
stored, already-rounded fields (which would give 0.1). -/
theorem c3_cost_formula_counterexample :
    (combineDataPure responsesB pricesB).hourly = [entryB] ∧
    entryB.cost_euros ≠ toFixed 6 (entryB.consumption_kWh * entryB.price_cents_per_kWh / 100) := by
  refine ⟨congrArg YearData.hourly runB, ?_⟩
  norm_num [entryB, toFixed]

/-- C4 (amended): every monthly summary's totals are the sums over its
member hourly records — exactly for consumption, and rounded to 2
decimals (so only within 0.005, not 1e-6) for cost — and its average
price is `round2(costSum / consumptionSum * 100)` computed from the
unrounded sums when the consumption sum is non-zero, else 0. -/
theorem c4_monthly_sums_amended (rs : List MeterReadingResponse) (ps : List PriceData)
    (s : MonthlyData) (hs : s ∈ (combineDataPure rs ps).monthly) :
    s.totalConsumption = sumCons (monthMembers s.month (combineDataPure rs ps).hourly) ∧
    s.totalCost = toFixed 2 (sumCost (monthMembers s.month (combineDataPure rs ps).hourly)) ∧
    |s.totalCost - sumCost (monthMembers s.month (combineDataPure rs ps).hourly)| ≤ 1 / 200 ∧
    s.averagePrice =
      (if sumCons (monthMembers s.month (combineDataPure rs ps).hourly) ≠ 0 then
        toFixed 2 (sumCost (monthMembers s.month (combineDataPure rs ps).hourly) /
          sumCons (monthMembers s.month (combineDataPure rs ps).hourly) * 100)
      else 0) := by
  have gs := goodState_run (buildPriceMap ps) rs
  have hs' : s ∈ ((((rs.foldl (processResponse (buildPriceMap ps)) ⟨[], []⟩).monthlyMap).map
      (·.2)).map finalizeMonth) :=
    (List.perm_insertionSort monthlyLE _).mem_iff.1 hs
  obtain ⟨d, hd, hfd⟩ := List.mem_map.1 hs'
  obtain ⟨q, hq, hqd⟩ := List.mem_map.1 hd
  rw [gs.1] at hq
  obtain ⟨hne0, hrec⟩ := mem_monthMapOf_char hq
  subst hqd
  subst hfd
  rw [hrec]
  have hmonth : (finalizeMonth ⟨q.1,
      sumCons (monthMembers q.1 (rs.foldl (processResponse (buildPriceMap ps)) ⟨[], []⟩).combined), 0,
      sumCost (monthMembers q.1 (rs.foldl (processResponse (buildPriceMap ps)) ⟨[], []⟩).combined)⟩).month
      = q.1 := rfl
  rw [hmonth]
  have hperm : List.Perm (monthMembers q.1 (combineDataPure rs ps).hourly)
      (monthMembers q.1 ((rs.foldl (processResponse (buildPriceMap ps)) ⟨[], []⟩).combined)) :=
    (List.perm_insertionSort hourlyLE _).filter _
  have hsc : sumCons (monthMembers q.1 (combineDataPure rs ps).hourly)
      = sumCons (monthMembers q.1 ((rs.foldl (processResponse (buildPriceMap ps)) ⟨[], []⟩).combined)) :=
    (hperm.map _).sum_eq
  have hsw : sumCost (monthMembers q.1 (combineDataPure rs ps).hourly)
      = sumCost (monthMembers q.1 ((rs.foldl (processResponse (buildPriceMap ps)) ⟨[], []⟩).combined)) :=
    (hperm.map _).sum_eq
  have hexact : toFixed 3
      (sumCons (monthMembers q.1 ((rs.foldl (processResponse (buildPriceMap ps)) ⟨[], []⟩).combined)))
      = sumCons (monthMembers q.1 ((rs.foldl (processResponse (buildPriceMap ps)) ⟨[], []⟩).combined)) := by
    apply toFixed_sum_eq_self
    intro x hx
    obtain ⟨e, he, hxe⟩ := List.mem_map.1 hx
    have hemem : e ∈ (rs.foldl (processResponse (buildPriceMap ps)) ⟨[], []⟩).combined :=
      List.mem_of_mem_filter he
    obtain ⟨v, p, h1, _, _⟩ := gs.2 e hemem
    rw [← hxe, h1]
    exact toFixed_int_mul 3 _
  rw [hsc, hsw]
  refine ⟨?_, rfl, ?_, ?_⟩
  · show toFixed 3 _ = _
    exact hexact
  · have := abs_toFixed_sub 2
      (sumCost (monthMembers q.1 ((rs.foldl (processResponse (buildPriceMap ps)) ⟨[], []⟩).combined)))
    show |toFixed 2 _ - _| ≤ _
    convert this using 2
    norm_num
  · show toFixed 2 _ = _
    by_cases hz : sumCons (monthMembers q.1
        ((rs.foldl (processResponse (buildPriceMap ps)) ⟨[], []⟩).combined)) ≠ 0
    · rw [if_pos hz, if_pos hz]
    · rw [if_neg hz, if_neg hz]
      exact toFixed_zero 2

/-- Witness for C4's amended statement at the single-reading January
summary. -/
theorem c4_monthly_sums_amended_witness :
    summaryA.totalConsumption
      = sumCons (monthMembers summaryA.month (combineDataPure responsesA pricesA).hourly) ∧
    summaryA.totalCost
      = toFixed 2 (sumCost (monthMembers summaryA.month (combineDataPure responsesA pricesA).hourly)) ∧
    |summaryA.totalCost
      - sumCost (monthMembers summaryA.month (combineDataPure responsesA pricesA).hourly)| ≤ 1 / 200 ∧
    summaryA.averagePrice =
      (if sumCons (monthMembers summaryA.month (combineDataPure responsesA pricesA).hourly) ≠ 0 then
        toFixed 2 (sumCost (monthMembers summaryA.month (combineDataPure responsesA pricesA).hourly) /
          sumCons (monthMembers summaryA.month (combineDataPure responsesA pricesA).hourly) * 100)
      else 0) :=
  c4_monthly_sums_amended responsesA pricesA summaryA (by
    rw [show (combineDataPure responsesA pricesA).monthly = [summaryA] from
      congrArg YearData.monthly runA]
    exact List.mem_singleton.2 rfl)

/-- Counterexample to C4 as stated: the single-record January month has
member cost sum 0.0942 but stored totalCostCurrency 0.09 — off by
0.0042, far beyond the claimed 1e-6 tolerance. -/
theorem c4_monthly_sums_counterexample :
    (combineDataPure responsesA pricesA).monthly = [summaryA] ∧
    (combineDataPure responsesA pricesA).hourly = [entryA] ∧
    ¬ (|summaryA.totalCost - entryA.cost_euros| ≤ 1 / 1000000) := by
  refine ⟨congrArg YearData.monthly runA, congrArg YearData.hourly runA, ?_⟩
  rw [not_le, show summaryA.totalCost - entryA.cost_euros = -(21 / 5000) from by
    norm_num [summaryA, entryA], abs_neg, abs_of_pos (by norm_num)]
  norm_num

/-- C8 (amended): for every input and in any iteration order, the hourly
output is sorted non-decreasingly by parsed timestamp and the monthly
output is strictly ascending by month key with no duplicate keys; the
hourly output is strictly ascending with no duplicate keys whenever the
emitted records' parsed timestamps are pairwise distinct (a duplicated
input reading produces duplicate hourly keys). -/
theorem c8_output_ordering_amended (rs : List MeterReadingResponse) (ps : List PriceData) :
    ((combineDataPure rs ps).hourly).Pairwise hourlyLE ∧
    ((combineDataPure rs ps).monthly).Pairwise (fun a b => a.month < b.month) ∧
    (((combineDataPure rs ps).hourly.map tsKeyOf).Nodup →
      ((combineDataPure rs ps).hourly).Pairwise (fun a b => tsKeyOf a < tsKeyOf b)) := by
  have gs := goodState_run (buildPriceMap ps) rs
  have hsorted : ((combineDataPure rs ps).hourly).Pairwise hourlyLE :=
    List.sorted_insertionSort hourlyLE
      (rs.foldl (processResponse (buildPriceMap ps)) ⟨[], []⟩).combined
  refine ⟨hsorted, ?_, ?_⟩
  · have hsortm : ((combineDataPure rs ps).monthly).Pairwise monthlyLE :=
      List.sorted_insertionSort monthlyLE _
    have hperm : List.Perm ((combineDataPure rs ps).monthly)
        ((((rs.foldl (processResponse (buildPriceMap ps)) ⟨[], []⟩).monthlyMap).map
          (fun p => p.2)).map finalizeMonth) :=
      List.perm_insertionSort monthlyLE _
    have h1 : (((((rs.foldl (processResponse (buildPriceMap ps)) ⟨[], []⟩).monthlyMap).map
        (fun p => p.2)).map finalizeMonth).map (fun x => x.month))
        = ((rs.foldl (processResponse (buildPriceMap ps)) ⟨[], []⟩).monthlyMap).map
          (fun p => p.1) := by
      rw [List.map_map, List.map_map]
      apply List.map_congr_left
      intro p hp
      rw [gs.1] at hp
      have hpm := (mem_monthMapOf_char hp).2
      show (finalizeMonth p.2).month = p.1
      rw [hpm]
      rfl
    have hkeys : (((combineDataPure rs ps).monthly).map (fun x => x.month)).Nodup := by
      rw [(hperm.map (fun x : MonthlyData => x.month)).nodup_iff, h1, gs.1]
      exact monthMapOf_nodupKeys _
    exact pairwise_lt_of_sorted_nodup (fun x : MonthlyData => x.month) hsortm hkeys
  · intro hnd
    exact pairwise_lt_of_sorted_nodup tsKeyOf hsorted hnd

/-- Witness for C8's amended statement on the single-reading input,
whose parsed timestamps are trivially distinct. -/
theorem c8_output_ordering_amended_witness :
    ((combineDataPure responsesA pricesA).hourly).Pairwise hourlyLE ∧
    ((combineDataPure responsesA pricesA).monthly).Pairwise (fun a b => a.month < b.month) ∧
    ((combineDataPure responsesA pricesA).hourly).Pairwise (fun a b => tsKeyOf a < tsKeyOf b) :=
  ⟨(c8_output_ordering_amended responsesA pricesA).1,
   (c8_output_ordering_amended responsesA pricesA).2.1,
   (c8_output_ordering_amended responsesA pricesA).2.2 (by
     rw [show (combineDataPure responsesA pricesA).hourly = [entryA] from
       congrArg YearData.hourly runA]
     simp)⟩

/-- Counterexample to C8 as stated: an input that reports the same hour
twice yields two hourly records with the identical timestamp key, so the
hourly sequence is neither strictly ascending nor duplicate-free. -/
theorem c8_duplicate_counterexample :
    ((combineDataPure responsesC pricesB).hourly).map (·.timestamp)
      = ["2024-01-01T00:00:00.000Z", "2024-01-01T00:00:00.000Z"] ∧
    ¬ (((combineDataPure responsesC pricesB).hourly).map (·.timestamp)).Nodup ∧
    ¬ ((combineDataPure responsesC pricesB).hourly).Pairwise
        (fun a b => tsKeyOf a < tsKeyOf b) := by
  have hh : (combineDataPure responsesC pricesB).hourly = [entryC, entryC] :=
    congrArg YearData.hourly runC
  refine ⟨by rw [hh]; rfl, by rw [hh]; simp [entryC], ?_⟩
  rw [hh]
  intro hp
  exact absurd (List.rel_of_pairwise_cons hp (List.mem_singleton.2 rfl)) (lt_irrefl _)

end SahkonKulutus
